import Mathlib

/-!
A shallow embedding of the note-file-manager command-line tool
(src/main.rs): the data model, id generation, the JSON store
(a serde_json-compatible serializer and parser for note collections),
argument parsing and the command dispatcher, together with theorems
about the behaviour of each action.
-/

namespace NoteFM

/-- A note record, mirroring the Rust struct with its field order
(content first, then id), which fixes the JSON field order on write. -/
structure Note where
  content : String
  id : String
deriving DecidableEq

/-- The five CLI actions of the Action enum. -/
inductive Action where
  | list : Action
  | get : String → Action
  | add : String → Action
  | patch : String → String → Action
  | delete : String → Action
deriving DecidableEq

/-- Rust format_note: the line "id -> content". -/
def format_note (n : Note) : String :=
  n.id ++ " -> " ++ n.content

/-- The fixed 62-character alphanumeric alphabet of generate_id. -/
def CHARSET : List Char :=
  "0123456789abcdefghijklmnopqrstuvwxyzABCDEFGHIJKLMNOPQRSTUVWXYZ".data

/-- Checked charset indexing; none models the Rust index panic branch. -/
def charsetLookup (idx : Nat) : Option Char :=
  CHARSET[idx]?

/-- Rust generate_id, with the eight random bytes of rng.gen made an
explicit argument; each byte is reduced mod 256 to model u8, then mod
the charset length 62, and the chosen characters are collected into a
string. -/
def generate_id (bytes : List Nat) : Option String :=
  (bytes.mapM (fun b => charsetLookup (b % 256 % 62))).map String.mk

/-- Lowercase hex digit, as emitted by serde_json's unicode escapes. -/
def hexDigit (n : Nat) : Char :=
  "0123456789abcdef".data.getD n '0'

/-- Models serde_json's escaping of one character: quote, backslash and
the five named control characters get two-character escapes, the other
control characters below 0x20 get a 6-character unicode escape, and
everything else is emitted raw. -/
def escapeChar (c : Char) : List Char :=
  if c = '\"' then ['\\', '\"']
  else if c = '\\' then ['\\', '\\']
  else if c = '\x08' then ['\\', 'b']
  else if c = '\t' then ['\\', 't']
  else if c = '\n' then ['\\', 'n']
  else if c = '\x0c' then ['\\', 'f']
  else if c = '\r' then ['\\', 'r']
  else if c.toNat < 32 then
    ['\\', 'u', '0', '0', hexDigit (c.toNat / 16), hexDigit (c.toNat % 16)]
  else [c]

/-- Escape every character of a string body. -/
def escapeList : List Char → List Char
  | [] => []
  | c :: cs => escapeChar c ++ escapeList cs

/-- The characters of serde_json's compact serialization of one note:
an object with the struct's field order, content first, then id. -/
def serializeNoteChars (n : Note) : List Char :=
  "\x7b\"content\":\"".data ++ escapeList n.content.data
    ++ "\",\"id\":\"".data ++ escapeList n.id.data ++ "\"\x7d".data

/-- Comma-separated body of the serialized collection. -/
def sepNotes : List Note → List Char
  | [] => []
  | [n] => serializeNoteChars n
  | n :: ns => serializeNoteChars n ++ ',' :: sepNotes ns

/-- serde_json's compact serialization of a note collection. -/
def serializeNotesChars (notes : List Note) : List Char :=
  '[' :: sepNotes notes ++ [']']

/-- Rust write_notes: seek to offset 0, truncate, write the compact
serialization; the resulting file content is exactly the JSON array. -/
def write_notes (notes : List Note) : String :=
  String.mk (serializeNotesChars notes)

/-- Value of one hex digit, as in JSON unicode escape parsing. -/
def hexVal (c : Char) : Option Nat :=
  if '0' ≤ c ∧ c ≤ '9' then some (c.toNat - '0'.toNat)
  else if 'a' ≤ c ∧ c ≤ 'f' then some (c.toNat - 'a'.toNat + 10)
  else if 'A' ≤ c ∧ c ≤ 'F' then some (c.toNat - 'A'.toNat + 10)
  else none

/-- Single-character escape table of JSON strings. -/
def unescapeChar (e : Char) : Option Char :=
  if e = '\"' then some '\"'
  else if e = '\\' then some '\\'
  else if e = '/' then some '/'
  else if e = 'b' then some '\x08'
  else if e = 'f' then some '\x0c'
  else if e = 'n' then some '\n'
  else if e = 'r' then some '\r'
  else if e = 't' then some '\t'
  else none

/-- Models serde_json's JSON string body parsing (after the opening
quote) on non-surrogate content: returns the decoded characters and the
remaining input after the closing quote; unescaped control characters
are rejected, as JSON requires. -/
def parseStringBody : List Char → Option (List Char × List Char)
  | [] => none
  | c :: rest =>
    if c = '\"' then some ([], rest)
    else if c = '\\' then
      match rest with
      | [] => none
      | e :: rest2 =>
        if e = 'u' then
          match rest2 with
          | h1 :: h2 :: h3 :: h4 :: rest3 =>
            match hexVal h1, hexVal h2, hexVal h3, hexVal h4 with
            | some v1, some v2, some v3, some v4 =>
              let code := ((v1 * 16 + v2) * 16 + v3) * 16 + v4
              if h : code.isValidChar then
                match parseStringBody rest3 with
                | some (s, r) => some (Char.ofNatAux code h :: s, r)
                | none => none
              else none
            | _, _, _, _ => none
          | _ => none
        else
          match unescapeChar e with
          | some d =>
            match parseStringBody rest2 with
            | some (s, r) => some (d :: s, r)
            | none => none
          | none => none
    else if c.toNat < 32 then none
    else
      match parseStringBody rest with
      | some (s, r) => some (c :: s, r)
      | none => none

/-- Consume an expected literal character sequence. -/
def dropLit : List Char → List Char → Option (List Char)
  | [], s => some s
  | _ :: _, [] => none
  | c :: cs, d :: ds => if c = d then dropLit cs ds else none

/-- Parse one serialized note object in the canonical compact field
order that write_notes produces. -/
def parseNoteObj (cs : List Char) : Option (Note × List Char) :=
  match dropLit "\x7b\"content\":\"".data cs with
  | none => none
  | some cs1 =>
    match parseStringBody cs1 with
    | none => none
    | some (content, cs2) =>
      match dropLit ",\"id\":\"".data cs2 with
      | none => none
      | some cs3 =>
        match parseStringBody cs3 with
        | none => none
        | some (id, cs4) =>
          match cs4 with
          | '\x7d' :: cs5 => some (⟨String.mk content, String.mk id⟩, cs5)
          | _ => none

/-- Parse a comma-separated sequence of note objects up to the closing
bracket. The fuel argument (instantiated with the input length) bounds
the number of elements and serves only termination. -/
def parseSeq : Nat → List Char → Option (List Note × List Char)
  | 0, _ => none
  | fuel + 1, cs =>
    match parseNoteObj cs with
    | none => none
    | some (n, cs1) =>
      match cs1 with
      | ',' :: cs2 =>
        match parseSeq fuel cs2 with
        | some (ns, r) => some (n :: ns, r)
        | none => none
      | ']' :: cs2 => some ([n], cs2)
      | _ => none

/-- Models serde_json's deserialization of a note collection,
restricted to the canonical compact grammar that write_notes produces
(plus the empty array written at bootstrap); trailing input is
rejected, as serde_json::from_reader rejects trailing characters. -/
def parseNotesChars (cs : List Char) : Option (List Note) :=
  match cs with
  | [] => none
  | c :: rest =>
    if c = '[' then
      match rest with
      | [] => none
      | d :: rest2 =>
        if d = ']' then (if rest2.isEmpty then some [] else none)
        else
          match parseSeq rest.length rest with
          | some (ns, r) => if r.isEmpty then some ns else none
          | none => none
    else none

/-- Rust read_notes via the JSON parser model; the error string stands
for serde_json's deserialization error. -/
def read_notes (s : String) : Except String (List Note) :=
  match parseNotesChars s.data with
  | some notes => Except.ok notes
  | none => Except.error "invalid JSON"

/-- The in-place first-match content update performed by the Patch arm
(iter_mut().find followed by the assignment): returns the updated
collection together with the updated note, or none when no note has the
target id. -/
def patchFirst (id newContent : String) : List Note → Option (List Note × Note)
  | [] => none
  | n :: rest =>
    if n.id = id then
      some (⟨newContent, n.id⟩ :: rest, ⟨newContent, n.id⟩)
    else
      match patchFirst id newContent rest with
      | some (l, m) => some (n :: l, m)
      | none => none

/-- One dispatcher run of main's match on the action: takes the random
bytes feeding generate_id and the current file content, and returns the
printed lines (or the error) together with the file content
afterwards. -/
def runAction (bytes : List Nat) (action : Action) (fileContent : String) :
    Except String (List String) × String :=
  match action with
  | Action.list =>
    match read_notes fileContent with
    | Except.error e => (Except.error e, fileContent)
    | Except.ok notes =>
      if notes.length > 0 then (Except.ok (notes.map format_note), fileContent)
      else (Except.ok ["No notes found"], fileContent)
  | Action.get id =>
    match read_notes fileContent with
    | Except.error e => (Except.error e, fileContent)
    | Except.ok notes =>
      match notes.find? (fun n => n.id == id) with
      | some note => (Except.ok [format_note note], fileContent)
      | none => (Except.error "note not found", fileContent)
  | Action.add content =>
    match read_notes fileContent with
    | Except.error e => (Except.error e, fileContent)
    | Except.ok notes =>
      match generate_id bytes with
      | none => (Except.error "index out of bounds", fileContent)
      | some newId =>
        let note : Note := ⟨content, newId⟩
        (Except.ok [format_note note], write_notes (notes ++ [note]))
  | Action.patch id content =>
    match read_notes fileContent with
    | Except.error e => (Except.error e, fileContent)
    | Except.ok notes =>
      match patchFirst id content notes with
      | some (notes2, updated) =>
        (Except.ok [format_note updated], write_notes notes2)
      | none => (Except.error "note not found", fileContent)
  | Action.delete id =>
    match read_notes fileContent with
    | Except.error e => (Except.error e, fileContent)
    | Except.ok notes =>
      let kept := notes.filter (fun n => n.id != id)
      if kept.length = notes.length then (Except.error "note not found", fileContent)
      else (Except.ok [], write_notes kept)

/-- The action-parsing part of parse_args over the argument vector
(argv[0] is the program name, as in std::env::args). -/
def parseAction (argv : List String) : Except String Action :=
  match argv[2]? with
  | none => Except.error "action must be provided"
  | some a =>
    match a with
    | "list" => Except.ok Action.list
    | "get" =>
      match argv[3]? with
      | none => Except.error "id must be provided"
      | some id => Except.ok (Action.get id)
    | "add" =>
      match argv[3]? with
      | none => Except.error "content must be provided"
      | some c => Except.ok (Action.add c)
    | "patch" =>
      match argv[3]? with
      | none => Except.error "id must be provided"
      | some id =>
        match argv[4]? with
        | none => Except.error "content must be provided"
        | some c => Except.ok (Action.patch id c)
    | "delete" =>
      match argv[3]? with
      | none => Except.error "id must be provided"
      | some id => Except.ok (Action.delete id)
    | _ => Except.error "unknown action"

/-- Rust parse_args over a file-system model: the file is an Option
String (none when the file does not exist). Opening creates the file if
absent; a zero-length file is then initialized to the two-byte array
and the read position reset. The second component is the file state
after parse_args returns, whether it succeeds or fails. Open and
metadata failures are outside the model. -/
def parse_args (argv : List String) (fs : Option String) :
    Except String (Action × String) × Option String :=
  match argv[1]? with
  | none => (Except.error "file path must be provided", fs)
  | some _ =>
    let opened := fs.getD ""
    let content := if opened.length = 0 then "[]" else opened
    match parseAction argv with
    | Except.error e => (Except.error e, some content)
    | Except.ok a => (Except.ok (a, content), some content)

/-- Whole-program run: parse_args, then the dispatcher on the parsed
action and the opened file content. -/
def runProgram (argv : List String) (fs : Option String) (bytes : List Nat) :
    Except String (List String) × Option String :=
  match parse_args argv fs with
  | (Except.error e, fs1) => (Except.error e, fs1)
  | (Except.ok (a, content), _) =>
    let out := runAction bytes a content
    (out.1, some out.2)

/-! ### Store lemmas: the parser inverts the serializer -/

theorem dropLit_append (l s : List Char) : dropLit l (l ++ s) = some s := by
  induction l with
  | nil => rfl
  | cons c cs ih => simp [dropLit, ih]

theorem hexVal_hexDigit : ∀ n, n < 16 → hexVal (hexDigit n) = some n := by decide

theorem ofNatAux_eq_ofNat (n : Nat) (h : n.isValidChar) :
    Char.ofNatAux n h = Char.ofNat n := by
  unfold Char.ofNat
  rw [dif_pos h]

theorem parseStringBody_escape (s : List Char) :
    ∀ rest, parseStringBody (escapeList s ++ '\"' :: rest) = some (s, rest) := by
  induction s with
  | nil =>
    intro rest
    show parseStringBody ('\"' :: rest) = _
    rw [parseStringBody.eq_def]
    simp
  | cons c cs ih =>
    intro rest
    show parseStringBody ((escapeChar c ++ escapeList cs) ++ '\"' :: rest) = _
    rw [List.append_assoc]
    unfold escapeChar
    split_ifs with h1 h2 h3 h4 h5 h6 h7 h8
    · subst h1
      rw [List.cons_append, List.cons_append, List.nil_append, parseStringBody.eq_def]
      simp [unescapeChar, ih]
    · subst h2
      rw [List.cons_append, List.cons_append, List.nil_append, parseStringBody.eq_def]
      simp [unescapeChar, ih]
    · subst h3
      rw [List.cons_append, List.cons_append, List.nil_append, parseStringBody.eq_def]
      simp [unescapeChar, ih]
    · subst h4
      rw [List.cons_append, List.cons_append, List.nil_append, parseStringBody.eq_def]
      simp [unescapeChar, ih]
    · subst h5
      rw [List.cons_append, List.cons_append, List.nil_append, parseStringBody.eq_def]
      simp [unescapeChar, ih]
    · subst h6
      rw [List.cons_append, List.cons_append, List.nil_append, parseStringBody.eq_def]
      simp [unescapeChar, ih]
    · subst h7
      rw [List.cons_append, List.cons_append, List.nil_append, parseStringBody.eq_def]
      simp [unescapeChar, ih]
    · have hv : (c.toNat).isValidChar := Or.inl (by omega)
      have hd1 : hexVal (hexDigit (c.toNat / 16)) = some (c.toNat / 16) :=
        hexVal_hexDigit _ (by omega)
      have hd2 : hexVal (hexDigit (c.toNat % 16)) = some (c.toNat % 16) :=
        hexVal_hexDigit _ (by omega)
      have hback : Char.ofNat c.toNat = c := Char.ofNat_toNat c
      have h0 : hexVal '0' = some 0 := rfl
      simp only [List.cons_append, List.nil_append]
      rw [parseStringBody.eq_def]
      simp [h0, hd1, hd2, ih rest, ofNatAux_eq_ofNat, hback]
      have hc : c.toNat / 16 * 16 + c.toNat % 16 = c.toNat := by omega
      rw [hc]
      exact ⟨hv, hback⟩
    · rw [List.cons_append, parseStringBody.eq_def]
      simp only [List.nil_append, if_neg h1, if_neg h2, if_neg h8, ih rest]

theorem parseNoteObj_serialize (n : Note) (rest : List Char) :
    parseNoteObj (serializeNoteChars n ++ rest) = some (n, rest) := by
  unfold parseNoteObj serializeNoteChars
  simp [dropLit, parseStringBody_escape, List.append_assoc]

theorem sepNotes_len (n : Note) (ns : List Note) :
    ns.length ≤ (sepNotes (n :: ns)).length := by
  induction ns generalizing n with
  | nil => simp
  | cons m ms ih =>
    show ms.length + 1 ≤ (serializeNoteChars n ++ ',' :: sepNotes (m :: ms)).length
    have := ih m
    simp only [List.length_append, List.length_cons]
    omega

theorem sepNotes_cons_head (n : Note) (ns : List Note) :
    ∃ t, sepNotes (n :: ns) = '\x7b' :: t := by
  cases ns with
  | nil => exact ⟨_, rfl⟩
  | cons m ms => exact ⟨_, rfl⟩

theorem parseSeq_serialize (ns : List Note) :
    ∀ (n : Note) (rest : List Char) (fuel : Nat), ns.length + 1 ≤ fuel →
      parseSeq fuel (sepNotes (n :: ns) ++ ']' :: rest) = some (n :: ns, rest) := by
  induction ns with
  | nil =>
    intro n rest fuel hf
    match fuel, hf with
    | fuel + 1, _ =>
      show parseSeq (fuel + 1) (serializeNoteChars n ++ ']' :: rest) = _
      unfold parseSeq
      rw [parseNoteObj_serialize]
      simp
  | cons m ms ih =>
    intro n rest fuel hf
    match fuel, hf with
    | fuel + 1, hf =>
      show parseSeq (fuel + 1)
        ((serializeNoteChars n ++ ',' :: sepNotes (m :: ms)) ++ ']' :: rest) = _
      rw [List.append_assoc, List.cons_append]
      unfold parseSeq
      rw [parseNoteObj_serialize]
      have hle : ms.length + 1 ≤ fuel := by
        simp only [List.length_cons] at hf
        omega
      simp [ih m rest fuel hle]

theorem parseNotes_serialize (notes : List Note) :
    parseNotesChars (serializeNotesChars notes) = some notes := by
  cases notes with
  | nil => rfl
  | cons n ns =>
    obtain ⟨t, ht⟩ := sepNotes_cons_head n ns
    have hfuel : ns.length + 1 ≤ (sepNotes (n :: ns) ++ [']']).length := by
      have := sepNotes_len n ns
      simp only [List.length_append, List.length_cons, List.length_nil]
      omega
    have hps := parseSeq_serialize ns n [] _ hfuel
    rw [ht] at hps
    unfold serializeNotesChars parseNotesChars
    rw [ht]
    simp only [List.cons_append] at hps ⊢
    rw [if_pos trivial, if_neg (by decide : ¬('\x7b' = ']')), hps]
    rfl

theorem read_write_roundtrip (notes : List Note) :
    read_notes (write_notes notes) = Except.ok notes := by
  have h := parseNotes_serialize notes
  have hdata : (write_notes notes).data = serializeNotesChars notes := rfl
  unfold read_notes
  rw [hdata, h]

/-! ### Id generation lemmas -/

theorem charsetLookup_mod (n : Nat) :
    charsetLookup (n % 62) = some (CHARSET.getD (n % 62) 'A') := by
  have hlen : CHARSET.length = 62 := rfl
  have hlt : n % 62 < CHARSET.length := by
    rw [hlen]
    exact Nat.mod_lt _ (by omega)
  unfold charsetLookup
  rw [List.getElem?_eq_getElem hlt, List.getD_eq_getElem?_getD,
    List.getElem?_eq_getElem hlt]
  rfl

theorem generate_id_eq (bytes : List Nat) :
    generate_id bytes =
      some (String.mk (bytes.map (fun b => CHARSET.getD (b % 256 % 62) 'A'))) := by
  unfold generate_id
  have hmap : bytes.mapM (fun b => charsetLookup (b % 256 % 62)) =
      some (bytes.map (fun b => CHARSET.getD (b % 256 % 62) 'A')) := by
    induction bytes with
    | nil => rfl
    | cons b bs ih =>
      rw [List.mapM_cons, charsetLookup_mod, ih]
      rfl
  rw [hmap]
  rfl

/-! ### Dispatcher lemmas -/

theorem find?_first {p : Note → Bool} {l : List Note} {n : Note}
    (h : l.find? p = some n) :
    ∃ i : Nat, l[i]? = some n ∧ p n = true ∧
      ∀ j : Nat, j < i → ∀ m, l[j]? = some m → p m = false := by
  induction l with
  | nil => simp at h
  | cons a as ih =>
    cases hpa : p a with
    | true =>
      rw [List.find?_cons, hpa] at h
      simp at h
      subst h
      refine ⟨0, by simp, hpa, ?_⟩
      intro j hj m hm
      omega
    | false =>
      rw [List.find?_cons, hpa] at h
      simp at h
      obtain ⟨i, hi, hpn, hfirst⟩ := ih h
      refine ⟨i + 1, by simpa using hi, hpn, ?_⟩
      intro j hj m hm
      cases j with
      | zero =>
        simp at hm
        subst hm
        exact hpa
      | succ j' =>
        exact hfirst j' (by omega) m (by simpa using hm)

theorem find?_append_none {p : Note → Bool} {l1 l2 : List Note}
    (h : l1.find? p = none) : (l1 ++ l2).find? p = l2.find? p := by
  rw [List.find?_append, h, Option.none_or]

theorem patchFirst_eq_none (id c : String) (notes : List Note)
    (h : ∀ n ∈ notes, n.id ≠ id) : patchFirst id c notes = none := by
  induction notes with
  | nil => rfl
  | cons a as ih =>
    unfold patchFirst
    rw [if_neg (h a (by simp)), ih (fun n hn => h n (by simp [hn]))]

theorem patchFirst_of_mem (id c : String) (notes : List Note)
    (hmem : ∃ n ∈ notes, n.id = id) :
    ∃ (i : Nat) (old : Note), notes[i]? = some old ∧ old.id = id ∧
      (∀ j : Nat, j < i → ∀ m, notes[j]? = some m → m.id ≠ id) ∧
      patchFirst id c notes = some (notes.set i ⟨c, old.id⟩, ⟨c, old.id⟩) := by
  induction notes with
  | nil => simp at hmem
  | cons a as ih =>
    by_cases ha : a.id = id
    · refine ⟨0, a, by simp, ha, ?_, ?_⟩
      · intro j hj m hm
        omega
      · unfold patchFirst
        rw [if_pos ha]
        simp
    · have hmem' : ∃ n ∈ as, n.id = id := by
        obtain ⟨n, hn, hni⟩ := hmem
        rcases List.mem_cons.mp hn with h | h
        · exact absurd (h ▸ hni) ha
        · exact ⟨n, h, hni⟩
      obtain ⟨i, old, hio, hoid, hfirst, hpf⟩ := ih hmem'
      refine ⟨i + 1, old, by simpa using hio, hoid, ?_, ?_⟩
      · intro j hj m hm
        cases j with
        | zero =>
          simp at hm
          subst hm
          exact ha
        | succ j' =>
          exact hfirst j' (by omega) m (by simpa using hm)
      · unfold patchFirst
        rw [if_neg ha, hpf]
        simp

theorem string_length_zero {s : String} (h : s.length = 0) : s = "" := by
  cases s with
  | mk data =>
    cases data with
    | nil => rfl
    | cons c cs => simp [String.length] at h

theorem data_mk (l : List Char) : (String.mk l).data = l := rfl

theorem charsetChar_mem (b : Nat) : CHARSET.getD (b % 256 % 62) 'A' ∈ CHARSET := by
  have hlen : CHARSET.length = 62 := rfl
  have hlt : b % 256 % 62 < CHARSET.length := by
    rw [hlen]
    exact Nat.mod_lt _ (by omega)
  rw [List.getD_eq_getElem?_getD, List.getElem?_eq_getElem hlt, Option.getD_some]
  exact List.getElem_mem hlt

/-! ### Claim theorems -/

/-- C5: writing any collection with write_notes and reading it back with
read_notes yields an equal ordered sequence of notes — same ids, same
content, same order. -/
theorem C5_read_write_roundtrip (notes : List Note) :
    read_notes (write_notes notes) = Except.ok notes :=
  read_write_roundtrip notes

/-- C10: the computed index byte mod 62 is always below the charset
length 62, so the charset lookup is total and generate_id always
returns a value — the index panic branch is unreachable. -/
theorem C10_generate_id_total :
    (∀ b : Nat, b % 256 % 62 < CHARSET.length) ∧
    (∀ bytes : List Nat, (generate_id bytes).isSome = true) := by
  constructor
  · intro b
    have hlen : CHARSET.length = 62 := rfl
    rw [hlen]
    exact Nat.mod_lt _ (by omega)
  · intro bytes
    rw [generate_id_eq bytes]
    rfl

/-- C7: for eight input bytes, generate_id produces an 8-character
string whose every character belongs to the fixed 62-character
alphanumeric alphabet, and whose i-th character is determined by the
i-th byte alone through the charset lookup. -/
theorem C7_generate_id_shape (bytes : List Nat) (h : bytes.length = 8) :
    ∃ s : String, generate_id bytes = some s ∧ s.length = 8 ∧
      (∀ c ∈ s.data, c ∈ CHARSET) ∧
      ∀ i : Nat, i < 8 →
        charsetLookup (bytes.getD i 0 % 256 % 62) = some (s.data.getD i 'A') := by
  refine ⟨_, generate_id_eq bytes, ?_, ?_, ?_⟩
  · show (String.mk _).length = 8
    simp [String.length, h]
  · intro c hc
    rw [data_mk] at hc
    obtain ⟨b, hb, rfl⟩ := List.mem_map.mp hc
    exact charsetChar_mem b
  · intro i hi
    have hib : i < bytes.length := by omega
    have hb : bytes.getD i 0 = bytes[i] := by
      rw [List.getD_eq_getElem?_getD, List.getElem?_eq_getElem hib]
      rfl
    rw [charsetLookup_mod, hb, data_mk]
    congr 1
    conv_rhs => rw [List.getD_eq_getElem?_getD, List.getElem?_map,
      List.getElem?_eq_getElem hib]
    rfl

/-- C7 witness: a concrete eight-byte input satisfying the theorem. -/
theorem C7_generate_id_shape_witness :
    ∃ s : String, generate_id [0, 1, 2, 3, 4, 5, 6, 255] = some s ∧ s.length = 8 ∧
      (∀ c ∈ s.data, c ∈ CHARSET) ∧
      ∀ i : Nat, i < 8 →
        charsetLookup ([0, 1, 2, 3, 4, 5, 6, 255].getD i 0 % 256 % 62) =
          some (s.data.getD i 'A') :=
  C7_generate_id_shape [0, 1, 2, 3, 4, 5, 6, 255] (by decide)

/-- C2: delete removes every note whose id equals the target, it fails
with the "note not found" error and skips the write exactly when no
note was removed (the post-count equals the pre-count, which happens
exactly when no note has the target id), and otherwise it persists the
reduced collection. -/
theorem C2_delete_spec (bytes : List Nat) (content0 : String) (notes : List Note)
    (id : String) (h : read_notes content0 = Except.ok notes) :
    (∀ n ∈ notes.filter (fun n => n.id != id), n.id ≠ id) ∧
    ((notes.filter (fun n => n.id != id)).length = notes.length ↔
      ∀ n ∈ notes, n.id ≠ id) ∧
    ((notes.filter (fun n => n.id != id)).length = notes.length →
      runAction bytes (Action.delete id) content0 =
        (Except.error "note not found", content0)) ∧
    ((notes.filter (fun n => n.id != id)).length ≠ notes.length →
      runAction bytes (Action.delete id) content0 =
        (Except.ok [], write_notes (notes.filter (fun n => n.id != id))) ∧
      read_notes (write_notes (notes.filter (fun n => n.id != id))) =
        Except.ok (notes.filter (fun n => n.id != id))) := by
  refine ⟨?_, ?_, ?_, ?_⟩
  · intro n hn
    exact bne_iff_ne.mp (List.mem_filter.mp hn).2
  · rw [List.filter_length_eq_length]
    constructor
    · intro hall n hn
      exact bne_iff_ne.mp (hall n hn)
    · intro hall n hn
      exact bne_iff_ne.mpr (hall n hn)
  · intro hlen
    simp [runAction, h, hlen]
  · intro hlen
    exact ⟨by simp [runAction, h, hlen], read_write_roundtrip _⟩

/-- C2 witness: the theorem applied to a concrete one-note store. -/
theorem C2_delete_spec_witness :
    (∀ n ∈ [Note.mk "a" "x1"].filter (fun n => n.id != "x1"), n.id ≠ "x1") ∧
    (([Note.mk "a" "x1"].filter (fun n => n.id != "x1")).length =
        [Note.mk "a" "x1"].length ↔
      ∀ n ∈ [Note.mk "a" "x1"], n.id ≠ "x1") ∧
    (([Note.mk "a" "x1"].filter (fun n => n.id != "x1")).length =
        [Note.mk "a" "x1"].length →
      runAction [] (Action.delete "x1") "[\x7b\"content\":\"a\",\"id\":\"x1\"\x7d]" =
        (Except.error "note not found", "[\x7b\"content\":\"a\",\"id\":\"x1\"\x7d]")) ∧
    (([Note.mk "a" "x1"].filter (fun n => n.id != "x1")).length ≠
        [Note.mk "a" "x1"].length →
      runAction [] (Action.delete "x1") "[\x7b\"content\":\"a\",\"id\":\"x1\"\x7d]" =
        (Except.ok [], write_notes ([Note.mk "a" "x1"].filter (fun n => n.id != "x1"))) ∧
      read_notes (write_notes ([Note.mk "a" "x1"].filter (fun n => n.id != "x1"))) =
        Except.ok ([Note.mk "a" "x1"].filter (fun n => n.id != "x1"))) :=
  C2_delete_spec [] "[\x7b\"content\":\"a\",\"id\":\"x1\"\x7d]" [Note.mk "a" "x1"] "x1" rfl

/-- C3: when no note carries the target id, patch fails with the
"note not found" error and performs no write — the stored file content
is left exactly as it was. -/
theorem C3_patch_not_found (bytes : List Nat) (content0 : String) (notes : List Note)
    (id c : String) (h : read_notes content0 = Except.ok notes)
    (habs : ∀ n ∈ notes, n.id ≠ id) :
    runAction bytes (Action.patch id c) content0 =
      (Except.error "note not found", content0) := by
  have hpf := patchFirst_eq_none id c notes habs
  simp [runAction, h, hpf]

/-- C3 witness: patching an absent id on a concrete one-note store. -/
theorem C3_patch_not_found_witness :
    runAction [] (Action.patch "zz" "new") "[\x7b\"content\":\"a\",\"id\":\"x1\"\x7d]" =
      (Except.error "note not found", "[\x7b\"content\":\"a\",\"id\":\"x1\"\x7d]") :=
  C3_patch_not_found [] "[\x7b\"content\":\"a\",\"id\":\"x1\"\x7d]" [Note.mk "a" "x1"]
    "zz" "new" rfl (by decide)

/-- C6: get performs a linear scan and returns the first note whose id
matches the target, printing its formatted line, and it fails with the
"note not found" error exactly when no note has the target id; the file
is never modified. -/
theorem C6_get_spec (bytes : List Nat) (content0 : String) (notes : List Note)
    (id : String) (h : read_notes content0 = Except.ok notes) :
    (runAction bytes (Action.get id) content0 =
        (Except.error "note not found", content0) ↔
      ∀ n ∈ notes, n.id ≠ id) ∧
    (∀ n : Note, notes.find? (fun m => m.id == id) = some n →
      runAction bytes (Action.get id) content0 =
        (Except.ok [format_note n], content0) ∧
      n.id = id ∧
      ∃ i : Nat, notes[i]? = some n ∧
        ∀ j : Nat, j < i → ∀ m, notes[j]? = some m → m.id ≠ id) := by
  constructor
  · constructor
    · intro hrun
      cases hfind : notes.find? (fun m => m.id == id) with
      | some n => simp [runAction, h, hfind] at hrun
      | none =>
        intro n hn
        have := List.find?_eq_none.mp hfind n hn
        simpa using this
    · intro hall
      have hfind : notes.find? (fun m => m.id == id) = none :=
        List.find?_eq_none.mpr (fun n hn => by simpa using hall n hn)
      simp [runAction, h, hfind]
  · intro n hfind
    obtain ⟨i, hi, hpn, hfirst⟩ := find?_first hfind
    refine ⟨by simp [runAction, h, hfind], by simpa using hpn, i, hi, ?_⟩
    intro j hj m hm
    have := hfirst j hj m hm
    simpa using this

/-- C6 witness: the theorem applied to a concrete two-note store with a
duplicate id, where get returns the first of the two matches. -/
theorem C6_get_spec_witness :
    (runAction [] (Action.get "x1")
        "[\x7b\"content\":\"a\",\"id\":\"x1\"\x7d,\x7b\"content\":\"b\",\"id\":\"x1\"\x7d]" =
        (Except.error "note not found",
          "[\x7b\"content\":\"a\",\"id\":\"x1\"\x7d,\x7b\"content\":\"b\",\"id\":\"x1\"\x7d]") ↔
      ∀ n ∈ [Note.mk "a" "x1", Note.mk "b" "x1"], n.id ≠ "x1") ∧
    (∀ n : Note,
      [Note.mk "a" "x1", Note.mk "b" "x1"].find? (fun m => m.id == "x1") = some n →
      runAction [] (Action.get "x1")
          "[\x7b\"content\":\"a\",\"id\":\"x1\"\x7d,\x7b\"content\":\"b\",\"id\":\"x1\"\x7d]" =
        (Except.ok [format_note n],
          "[\x7b\"content\":\"a\",\"id\":\"x1\"\x7d,\x7b\"content\":\"b\",\"id\":\"x1\"\x7d]") ∧
      n.id = "x1" ∧
      ∃ i : Nat, [Note.mk "a" "x1", Note.mk "b" "x1"][i]? = some n ∧
        ∀ j : Nat, j < i → ∀ m,
          [Note.mk "a" "x1", Note.mk "b" "x1"][j]? = some m → m.id ≠ "x1") :=
  C6_get_spec []
    "[\x7b\"content\":\"a\",\"id\":\"x1\"\x7d,\x7b\"content\":\"b\",\"id\":\"x1\"\x7d]"
    [Note.mk "a" "x1", Note.mk "b" "x1"] "x1" rfl

/-- C9: when the target id is present, patch replaces the content of the
first matching note in place and persists the full collection; the
matched note keeps its id, every other position is unchanged, and the
collection's length and order are preserved. -/
theorem C9_patch_frame (bytes : List Nat) (content0 : String) (notes : List Note)
    (id c : String) (h : read_notes content0 = Except.ok notes)
    (hmem : ∃ n ∈ notes, n.id = id) :
    ∃ (i : Nat) (old : Note), notes[i]? = some old ∧ old.id = id ∧
      (∀ j : Nat, j < i → ∀ m, notes[j]? = some m → m.id ≠ id) ∧
      runAction bytes (Action.patch id c) content0 =
        (Except.ok [format_note (Note.mk c old.id)],
          write_notes (notes.set i (Note.mk c old.id))) ∧
      (notes.set i (Note.mk c old.id)).length = notes.length ∧
      (∀ j : Nat, j ≠ i → (notes.set i (Note.mk c old.id))[j]? = notes[j]?) ∧
      (notes.set i (Note.mk c old.id))[i]? = some (Note.mk c old.id) ∧
      read_notes (write_notes (notes.set i (Note.mk c old.id))) =
        Except.ok (notes.set i (Note.mk c old.id)) := by
  obtain ⟨i, old, hio, hoid, hfirst, hpf⟩ := patchFirst_of_mem id c notes hmem
  have hilt : i < notes.length := by
    rcases List.getElem?_eq_some_iff.mp hio with ⟨hl, _⟩
    exact hl
  refine ⟨i, old, hio, hoid, hfirst, ?_, by simp, ?_, ?_, read_write_roundtrip _⟩
  · simp [runAction, h, hpf]
  · intro j hj
    exact List.getElem?_set_ne (Ne.symm hj)
  · rw [List.getElem?_set]
    simp [hilt]

/-- C9 witness: the theorem applied to a concrete two-note store. -/
theorem C9_patch_frame_witness :
    ∃ (i : Nat) (old : Note),
      [Note.mk "a" "x1", Note.mk "b" "y2"][i]? = some old ∧ old.id = "y2" ∧
      (∀ j : Nat, j < i → ∀ m,
        [Note.mk "a" "x1", Note.mk "b" "y2"][j]? = some m → m.id ≠ "y2") ∧
      runAction [] (Action.patch "y2" "c")
          "[\x7b\"content\":\"a\",\"id\":\"x1\"\x7d,\x7b\"content\":\"b\",\"id\":\"y2\"\x7d]" =
        (Except.ok [format_note (Note.mk "c" old.id)],
          write_notes ([Note.mk "a" "x1", Note.mk "b" "y2"].set i (Note.mk "c" old.id))) ∧
      ([Note.mk "a" "x1", Note.mk "b" "y2"].set i (Note.mk "c" old.id)).length =
        [Note.mk "a" "x1", Note.mk "b" "y2"].length ∧
      (∀ j : Nat, j ≠ i →
        ([Note.mk "a" "x1", Note.mk "b" "y2"].set i (Note.mk "c" old.id))[j]? =
          [Note.mk "a" "x1", Note.mk "b" "y2"][j]?) ∧
      ([Note.mk "a" "x1", Note.mk "b" "y2"].set i (Note.mk "c" old.id))[i]? =
        some (Note.mk "c" old.id) ∧
      read_notes (write_notes ([Note.mk "a" "x1", Note.mk "b" "y2"].set i
          (Note.mk "c" old.id))) =
        Except.ok ([Note.mk "a" "x1", Note.mk "b" "y2"].set i (Note.mk "c" old.id)) :=
  C9_patch_frame []
    "[\x7b\"content\":\"a\",\"id\":\"x1\"\x7d,\x7b\"content\":\"b\",\"id\":\"y2\"\x7d]"
    [Note.mk "a" "x1", Note.mk "b" "y2"] "y2" "c" rfl
    ⟨Note.mk "b" "y2", by decide, rfl⟩

/-- C4 counterexample: when the freshly generated id collides with an
existing id (all-zero bytes generate "00000000", which the store already
contains), add prints the new note's line but the following get returns
the first match — the pre-existing note — and prints a different line.
This refutes the claim for arbitrary starting collections. -/
theorem C4_counterexample :
    runAction [0, 0, 0, 0, 0, 0, 0, 0] (Action.add "hello")
        "[\x7b\"content\":\"x\",\"id\":\"00000000\"\x7d]" =
      (Except.ok ["00000000 -> hello"],
        "[\x7b\"content\":\"x\",\"id\":\"00000000\"\x7d,\x7b\"content\":\"hello\",\"id\":\"00000000\"\x7d]") ∧
    runAction [0, 0, 0, 0, 0, 0, 0, 0] (Action.get "00000000")
        "[\x7b\"content\":\"x\",\"id\":\"00000000\"\x7d,\x7b\"content\":\"hello\",\"id\":\"00000000\"\x7d]" =
      (Except.ok ["00000000 -> x"],
        "[\x7b\"content\":\"x\",\"id\":\"00000000\"\x7d,\x7b\"content\":\"hello\",\"id\":\"00000000\"\x7d]") ∧
    ("00000000 -> x" : String) ≠ "00000000 -> hello" :=
  ⟨rfl, rfl, by decide⟩

/-- C4 (amended): provided the freshly generated id does not already
occur in the starting collection, add "hello" followed by get on the
returned id prints exactly the formatted line that add printed. -/
theorem C4_add_then_get (bytes : List Nat) (content0 : String) (notes : List Note)
    (s : String) (h : read_notes content0 = Except.ok notes)
    (hid : generate_id bytes = some s)
    (hfresh : ∀ n ∈ notes, n.id ≠ s) :
    ∃ content1 : String,
      runAction bytes (Action.add "hello") content0 =
        (Except.ok [format_note (Note.mk "hello" s)], content1) ∧
      runAction bytes (Action.get s) content1 =
        (Except.ok [format_note (Note.mk "hello" s)], content1) := by
  refine ⟨write_notes (notes ++ [Note.mk "hello" s]), ?_, ?_⟩
  · simp [runAction, h, hid]
  · have hrt := read_write_roundtrip (notes ++ [Note.mk "hello" s])
    have hnone : notes.find? (fun n => n.id == s) = none :=
      List.find?_eq_none.mpr (fun n hn => by simpa using hfresh n hn)
    have hfind : (notes ++ [Note.mk "hello" s]).find? (fun n => n.id == s) =
        some (Note.mk "hello" s) := by
      rw [find?_append_none hnone]
      simp [List.find?_cons]
    simp [runAction, hrt, hfind]

/-- C4 witness: adding to the empty store with all-zero bytes. -/
theorem C4_add_then_get_witness :
    ∃ content1 : String,
      runAction [0, 0, 0, 0, 0, 0, 0, 0] (Action.add "hello") "[]" =
        (Except.ok [format_note (Note.mk "hello" "00000000")], content1) ∧
      runAction [0, 0, 0, 0, 0, 0, 0, 0] (Action.get "00000000") content1 =
        (Except.ok [format_note (Note.mk "hello" "00000000")], content1) :=
  C4_add_then_get [0, 0, 0, 0, 0, 0, 0, 0] "[]" [] "00000000" rfl rfl (by decide)

/-- C8: against an absent or zero-length file, parse_args first
initializes the file to the empty array and the action then executes
against that initialized content; in particular list on a fresh file
prints the "No notes found" line. -/
theorem C8_bootstrap (argv : List String) (fs : Option String) (p : String)
    (bytes : List Nat) (hp : argv[1]? = some p) (hfs : fs = none ∨ fs = some "") :
    (parse_args argv fs).2 = some "[]" ∧
    (∀ a content, parse_args argv fs = (Except.ok (a, content), some "[]") →
      content = "[]") ∧
    (argv[2]? = some "list" →
      runProgram argv fs bytes = (Except.ok ["No notes found"], some "[]")) := by
  have hinit : parse_args argv fs =
      (match parseAction argv with
        | Except.error e => (Except.error e, some "[]")
        | Except.ok a => (Except.ok (a, "[]"), some "[]")) := by
    unfold parse_args
    rw [hp]
    rcases hfs with rfl | rfl <;> rfl
  refine ⟨?_, ?_, ?_⟩
  · rw [hinit]
    cases parseAction argv <;> rfl
  · intro a content heq
    rw [hinit] at heq
    cases hpa : parseAction argv <;> rw [hpa] at heq <;> simp at heq
    exact heq.2.symm
  · intro hl
    have hpa : parseAction argv = Except.ok Action.list := by
      unfold parseAction
      rw [hl]
      simp
    unfold runProgram
    rw [hinit, hpa]
    rfl

/-- C8 witness: listing a nonexistent file. -/
theorem C8_bootstrap_witness :
    (parse_args ["prog", "f", "list"] none).2 = some "[]" ∧
    (∀ a content, parse_args ["prog", "f", "list"] none =
        (Except.ok (a, content), some "[]") → content = "[]") ∧
    ((["prog", "f", "list"] : List String)[2]? = some "list" →
      runProgram ["prog", "f", "list"] none [] =
        (Except.ok ["No notes found"], some "[]")) :=
  C8_bootstrap ["prog", "f", "list"] none "f" [] rfl (Or.inl rfl)

/-- C1 counterexample: invoking the program with a file path but no
action against a nonexistent file reports the usage error "action must
be provided", yet the file has already been created and initialized to
the empty array by then — a file mutation does occur before the usage
error is reported, refuting the claim. -/
theorem C1_counterexample :
    parse_args ["prog", "notes.json"] none =
      (Except.error "action must be provided", some "[]") ∧
    (none : Option String) ≠ some "[]" :=
  ⟨rfl, by decide⟩

/-- C1 (amended): every usage error is detected during argument parsing
and no note mutation occurs; a missing file path leaves the file system
completely untouched, and any other usage error leaves the file either
untouched or — when it was absent or empty — freshly created and
initialized to the empty array, the bootstrap initialization being the
only file mutation that can precede the error report. -/
theorem C1_usage_errors (argv : List String) (fs : Option String) (e : String)
    (h : (parse_args argv fs).1 = Except.error e) :
    (argv[1]? = none → (parse_args argv fs).2 = fs) ∧
    ((parse_args argv fs).2 = fs ∨
      ((fs = none ∨ fs = some "") ∧ (parse_args argv fs).2 = some "[]")) := by
  constructor
  · intro hnone
    unfold parse_args
    rw [hnone]
  · unfold parse_args
    cases hp : argv[1]? with
    | none => exact Or.inl rfl
    | some p =>
      cases fs with
      | none =>
        refine Or.inr ⟨Or.inl rfl, ?_⟩
        cases parseAction argv <;> rfl
      | some s =>
        by_cases hs : s.length = 0
        · have hse : s = "" := string_length_zero hs
          subst hse
          refine Or.inr ⟨Or.inr rfl, ?_⟩
          cases parseAction argv <;> rfl
        · refine Or.inl ?_
          simp only [Option.getD_some]
          rw [if_neg hs]
          cases parseAction argv <;> rfl

/-- C1 amended-claim witness: a missing-action invocation over an
existing nonempty file leaves the file untouched. -/
theorem C1_usage_errors_witness :
    ((["prog", "f"] : List String)[1]? = none →
      (parse_args ["prog", "f"] (some "x")).2 = some "x") ∧
    ((parse_args ["prog", "f"] (some "x")).2 = some "x" ∨
      (((some "x" : Option String) = none ∨ (some "x" : Option String) = some "") ∧
        (parse_args ["prog", "f"] (some "x")).2 = some "[]")) :=
  C1_usage_errors ["prog", "f"] (some "x") "action must be provided" rfl

end NoteFM
